import Mathlib

/-! Verification of the Pricing-Visualization dashboards.

Rational-number shallow embedding of the quantitative core of the two
scripts `app.py` and `pricing-visualization.py`: the linear demand model,
the revenue/cost/profit series over a price grid, the optimal-price and
break-even searches, and the survey-statistics formulas (margin of error
with finite-population correction, confidence intervals, Van Westendorp
PMC/PME derivation).  Python/numpy float arithmetic is idealised as exact
arithmetic over `ℚ` (and `ℝ` where a square root occurs).
-/

namespace PricingViz

/-- Embedding of `np.linspace(a, b, n)`: `n` evenly spaced samples from `a`
to `b` inclusive, sample `i` being `a + (b - a) * i / (n - 1)`. -/
def linspace (a b : ℚ) (n : ℕ) : List ℚ :=
  (List.range n).map (fun i : ℕ => a + (b - a) * (i : ℚ) / ((n : ℚ) - 1))

/-- Embedding of `np.max` over a one-dimensional array, as the fold of
`max` over the list (`0` on the empty list, which numpy instead rejects;
every use below is on a non-empty list). -/
def npMax (l : List ℚ) : ℚ := l.max?.getD 0

/-- Embedding of `np.min` / Python `min` over a one-dimensional array
(`0` on the empty list, which numpy instead rejects). -/
def npMin (l : List ℚ) : ℚ := l.min?.getD 0

/-- Embedding of `np.argmax`: the index of the first occurrence of the
maximum value of the array. -/
def npArgmax (l : List ℚ) : ℕ := l.findIdx (fun x => decide (npMax l ≤ x))

namespace PV

/-- Slider/input state consumed by `update_profit_curve` in
`pricing-visualization.py`. -/
structure Params where
  min_price : ℚ
  max_price : ℚ
  fixed_cost : ℚ
  variable_cost : ℚ
  price_elasticity : ℚ
  specified_price : ℚ
deriving DecidableEq

/-- Maximum sales at minimum price: `max_sales_quantity = 1000`. -/
def max_sales_quantity : ℚ := 1000

/-- Minimum sales at maximum price: `min_sales_quantity = 200`. -/
def min_sales_quantity : ℚ := 200

/-- Price grid: `prices = np.linspace(variable_cost, max_price, 100)`. -/
def prices (p : Params) : List ℚ := linspace p.variable_cost p.max_price 100

/-- Demand slope of `update_profit_curve`:
`(min_sales_quantity - max_sales_quantity) / (max_price - min_price) * price_elasticity`,
embedded with total rational division (the degenerate
`max_price = min_price` case is treated by `computeDemandSlope` below,
which records the run-time failure of the Python float division). -/
def demand_slope (p : Params) : ℚ :=
  (min_sales_quantity - max_sales_quantity) / (p.max_price - p.min_price) *
    p.price_elasticity

/-- Sales quantities:
`sales_quantity = max_sales_quantity + demand_slope * (prices - min_price)`.
This variant applies no clamping to `≥ 0`. -/
def sales_quantity (p : Params) : List ℚ :=
  (prices p).map (fun pr => max_sales_quantity + demand_slope p * (pr - p.min_price))

/-- Revenue series: `total_revenue = prices * sales_quantity`
(elementwise numpy product). -/
def total_revenue (p : Params) : List ℚ :=
  (List.zip (prices p) (sales_quantity p)).map (fun x => x.1 * x.2)

/-- Cost series: `total_costs = (variable_cost * sales_quantity) + fixed_cost`. -/
def total_costs (p : Params) : List ℚ :=
  (sales_quantity p).map (fun q => p.variable_cost * q + p.fixed_cost)

/-- Profit series: `profit = total_revenue - total_costs` (elementwise). -/
def profit (p : Params) : List ℚ :=
  (List.zip (total_revenue p) (total_costs p)).map (fun x => x.1 - x.2)

/-- Gross margin at the specified price:
`(specified_price - variable_cost) / specified_price * 100` when
`specified_price > variable_cost`, else `0`. -/
def gross_margin (p : Params) : ℚ :=
  if p.specified_price > p.variable_cost then
    (p.specified_price - p.variable_cost) / p.specified_price * 100
  else 0

/-- The three deviation messages produced by the `price_deviation`
conditional chain of `update_profit_curve`. -/
inductive RangeClass where
  | belowRange
  | withinRange
  | aboveRange
deriving DecidableEq

/-- Range classification of the specified price: below if
`specified_price < min_price`, above if `specified_price > max_price`,
within otherwise. -/
def price_deviation (p : Params) : RangeClass :=
  if p.specified_price < p.min_price then .belowRange
  else if p.specified_price > p.max_price then .aboveRange
  else .withinRange

/-- Profit at the specified price:
`specified_price * q - (fixed_cost + variable_cost * q)` where
`q = max_sales_quantity + demand_slope * (specified_price - min_price)`. -/
def specified_profit (p : Params) : ℚ :=
  p.specified_price *
      (max_sales_quantity + demand_slope p * (p.specified_price - p.min_price)) -
    (p.fixed_cost +
      p.variable_cost *
        (max_sales_quantity + demand_slope p * (p.specified_price - p.min_price)))

/-- Optimal price: `optimal_price = prices[np.argmax(profit)]`. -/
def optimal_price (p : Params) : ℚ := (prices p).getD (npArgmax (profit p)) 0

end PV

/-- Outcome of evaluating the demand-slope expression under Python
semantics.  Dividing by an exact float zero raises `ZeroDivisionError`;
`degenerateRangeError` is the failure mode the specification prescribes,
and no code path of the repository produces it (neither script defines
such an error). -/
inductive SlopeResult where
  | ok (slope : ℚ)
  | zeroDivisionError
  | degenerateRangeError
deriving DecidableEq

/-- The demand-slope expression
`(minQ - maxQ) / (maxP - minP) * elasticity` as the scripts evaluate it:
an unguarded division whose denominator `maxP - minP` raises
`ZeroDivisionError` when it is zero. -/
def computeDemandSlope (minP maxP minQ maxQ elasticity : ℚ) : SlopeResult :=
  if maxP - minP = 0 then .zeroDivisionError
  else .ok ((minQ - maxQ) / (maxP - minP) * elasticity)

namespace App

/-- Input state of `app.py` consumed by `calculate_demand_and_profit`,
the survey-statistics section and the break-even section. -/
structure Inputs where
  population_size : ℕ
  variable_cost : ℚ
  fixed_cost : ℚ
  survey_sample_size : ℕ
  pmc : ℚ
  pme : ℚ
  user_price : ℚ
deriving DecidableEq

/-- Hypothetical 10% penetration rate:
`max_sales_quantity = int(population_size * 0.1)`; the exact-arithmetic
value of that truncation is the natural-number floor division by 10. -/
def max_sales_quantity (i : Inputs) : ℕ := i.population_size / 10

/-- Price grid of `app.py`: `prices = np.linspace(50, 200, 100)`. -/
def prices : List ℚ := linspace 50 200 100

/-- Demand slope of `calculate_demand_and_profit`:
`(-max_sales_quantity) / (max(prices) - min(prices))`. -/
def demand_slope (i : Inputs) : ℚ :=
  (-(max_sales_quantity i : ℚ)) / (npMax prices - npMin prices)

/-- Sales quantities of `calculate_demand_and_profit` after the clamp:
`sales_quantity = max_sales_quantity + demand_slope * (prices - min(prices))`
followed by `sales_quantity = np.maximum(sales_quantity, 0)`. -/
def sales_quantity (i : Inputs) : List ℚ :=
  prices.map (fun p =>
    max ((max_sales_quantity i : ℚ) + demand_slope i * (p - npMin prices)) 0)

/-- Revenue series: `revenue = prices * sales_quantity` (elementwise). -/
def revenue (i : Inputs) : List ℚ :=
  (List.zip prices (sales_quantity i)).map (fun x => x.1 * x.2)

/-- Profit series:
`profit = revenue - (total_variable_costs + fixed_cost)` with
`total_variable_costs = variable_cost * sales_quantity` (elementwise). -/
def profit (i : Inputs) : List ℚ :=
  (List.zip (revenue i) (sales_quantity i)).map
    (fun x => x.1 - (i.variable_cost * x.2 + i.fixed_cost))

/-- Proportion estimate for maximum variability: `p = 0.5`. -/
noncomputable def p_estimate : ℝ := 1 / 2

/-- Z-score for 95% confidence: `z_score = 1.96`. -/
noncomputable def z_score : ℝ := 196 / 100

/-- Standard margin of error without FPC:
`margin_of_error = z_score * np.sqrt((p * (1 - p)) / survey_sample_size)`. -/
noncomputable def margin_of_error_base (n : ℕ) : ℝ :=
  z_score * Real.sqrt ((p_estimate * (1 - p_estimate)) / n)

/-- Finite-population correction factor:
`fpc_factor = np.sqrt((population_size - survey_sample_size) / (population_size - 1))`. -/
noncomputable def fpc_factor (N n : ℕ) : ℝ :=
  Real.sqrt (((N : ℝ) - n) / ((N : ℝ) - 1))

/-- Margin of error after the conditional FPC adjustment of `app.py`
(`if survey_sample_size > 0 and population_size > 0 and
survey_sample_size < population_size: margin_of_error *= fpc_factor`).
Passing `none` for the population size models the specification variant
`marginOfError(sampleSize, populationSize=None)`, where the FPC branch is
skipped. -/
noncomputable def margin_of_error (n : ℕ) (N : Option ℕ) : ℝ :=
  match N with
  | none => margin_of_error_base n
  | some N =>
      if 0 < n ∧ 0 < N ∧ n < N then margin_of_error_base n * fpc_factor N n
      else margin_of_error_base n

/-- Confidence interval around an anchor price, as computed for PMC and
PME: `(anchor - moe * anchor, anchor + moe * anchor)`. -/
def confidence_interval (anchor moe : ℚ) : ℚ × ℚ :=
  (anchor - moe * anchor, anchor + moe * anchor)

/-- Outcome of the user-price break-even section of `app.py`: either the
computed quantity or the corrective message shown when the price does not
exceed the variable cost. -/
inductive BreakEvenOutcome where
  | quantity (q : ℚ)
  | priceNotAboveVariableCost
deriving DecidableEq

/-- SECTION 5 of `app.py`:
`if user_price > variable_cost: break_even_quantity = fixed_cost / (user_price - variable_cost)`,
else only the corrective message is shown and no quantity is computed. -/
def break_even_analysis (user_price variable_cost fixed_cost : ℚ) : BreakEvenOutcome :=
  if user_price > variable_cost then
    .quantity (fixed_cost / (user_price - variable_cost))
  else .priceNotAboveVariableCost

end App

/-- Modelled from the spec: `findBreakEven` is not implemented in the
repository sources (`app.py` only reflects on the `np.max(profit) < 0`
branch).  It scans the `(price, profit)` series in increasing price order
and returns the first grid point whose instantaneous profit is `≥ 0`,
`none` (`NoBreakEven`) when every profit is negative. -/
def findBreakEven (series : List (ℚ × ℚ)) : Option (ℚ × ℚ) :=
  series.find? (fun e => decide (0 ≤ e.2))

/-- One sampled point of the four Van Westendorp cumulative curves. -/
structure PSMCurvePoint where
  price : ℚ
  pctTooCheap : ℚ
  pctCheap : ℚ
  pctExpensive : ℚ
  pctTooExpensive : ℚ
deriving DecidableEq

/-- Result of the PMC/PME derivation: the two marginal prices, or the
failure when the crossing assumption does not hold. -/
inductive PSMResult where
  | ok (pmc pme : ℚ)
  | noIntersectionError
deriving DecidableEq

/-- Modelled from the spec: points eligible for the Point of Marginal
Cheapness, those satisfying `pctTooCheap ≤ pctExpensive`. -/
def pmcCandidates (pts : List PSMCurvePoint) : List PSMCurvePoint :=
  pts.filter (fun c => decide (c.pctTooCheap ≤ c.pctExpensive))

/-- Modelled from the spec: points eligible for the Point of Marginal
Expensiveness, those satisfying `pctTooExpensive ≥ pctCheap`. -/
def pmeCandidates (pts : List PSMCurvePoint) : List PSMCurvePoint :=
  pts.filter (fun c => decide (c.pctTooExpensive ≥ c.pctCheap))

/-- Modelled from the spec: `derivePMCPME` is not implemented in the
repository sources (`app.py` reads PMC and PME directly as number
inputs).  `pmc` is the maximum price among points with
`pctTooCheap ≤ pctExpensive`, `pme` the minimum price among points with
`pctTooExpensive ≥ pctCheap`; `NoIntersectionError` when either set of
candidates is empty. -/
def derivePMCPME (pts : List PSMCurvePoint) : PSMResult :=
  match ((pmcCandidates pts).map PSMCurvePoint.price).max?,
      ((pmeCandidates pts).map PSMCurvePoint.price).min? with
  | some pmc, some pme => .ok pmc pme
  | _, _ => .noIntersectionError

/-- Aggregate of the pure computations of `update_profit_curve`, used to
state determinism. -/
def pvCompute (p : PV.Params) : List ℚ × List ℚ × ℚ × PV.RangeClass × ℚ × ℚ :=
  (PV.sales_quantity p, PV.profit p, PV.gross_margin p, PV.price_deviation p,
    PV.specified_profit p, PV.optimal_price p)

/-- Aggregate of the pure computations of `app.py`, used to state
determinism. -/
noncomputable def appCompute (i : App.Inputs) :
    List ℚ × List ℚ × ℝ × App.BreakEvenOutcome :=
  (App.sales_quantity i, App.profit i,
    App.margin_of_error i.survey_sample_size (some i.population_size),
    App.break_even_analysis i.user_price i.variable_cost i.fixed_cost)

/-- Example curve points used in §8 of the specification (price,
pctTooCheap, pctCheap, pctExpensive, pctTooExpensive). -/
def psmExample : List PSMCurvePoint :=
  [⟨50, 90, 70, 10, 5⟩, ⟨100, 50, 50, 50, 50⟩, ⟨150, 10, 30, 90, 95⟩]

instance : Std.Antisymm ((· : ℚ) ≤ ·) := ⟨fun h h2 => le_antisymm h h2⟩

/-- The fold `List.max?` of a non-empty rational list is attained by a
member that bounds every member from above. -/
theorem max?_spec {l : List ℚ} (h : l ≠ []) :
    ∃ m, l.max? = some m ∧ m ∈ l ∧ ∀ b ∈ l, b ≤ m := by
  cases hm : l.max? with
  | none => exact absurd (List.max?_eq_none_iff.mp hm) h
  | some m =>
    have hprops := (List.max?_eq_some_iff (fun a => le_refl a)
      (fun a b => max_choice a b) (fun a b c => max_le_iff)).mp hm
    exact ⟨m, rfl, hprops.1, hprops.2⟩

/-- The fold `List.min?` of a non-empty rational list is attained by a
member that bounds every member from below. -/
theorem min?_spec {l : List ℚ} (h : l ≠ []) :
    ∃ m, l.min? = some m ∧ m ∈ l ∧ ∀ b ∈ l, m ≤ b := by
  cases hm : l.min? with
  | none => exact absurd (List.min?_eq_none_iff.mp hm) h
  | some m =>
    have hprops := (List.min?_eq_some_iff (fun a => le_refl a)
      (fun a b => min_choice a b) (fun a b c => le_min_iff)).mp hm
    exact ⟨m, rfl, hprops.1, hprops.2⟩

/-- Sample `i` of `np.linspace(a, b, n)` is `a + (b - a) * i / (n - 1)`. -/
theorem linspace_getD (a b : ℚ) (n i : ℕ) (h : i < n) :
    (linspace a b n).getD i 0 = a + (b - a) * i / ((n : ℚ) - 1) := by
  unfold linspace
  rw [List.getD_eq_getElem?_getD, List.getElem?_map, List.getElem?_range h]
  rfl

/-- `np.linspace(a, b, n)` has `n` samples. -/
theorem linspace_length (a b : ℚ) (n : ℕ) : (linspace a b n).length = n := by
  unfold linspace
  rw [List.length_map, List.length_range]

/-- `getD` commutes with `map` at an in-range index. -/
theorem getD_map_of_lt (f : ℚ → ℚ) (l : List ℚ) (i : ℕ) (h : i < l.length) :
    (l.map f).getD i 0 = f (l.getD i 0) := by
  rw [List.getD_eq_getElem?_getD, List.getElem?_map,
    List.getElem?_eq_getElem h, List.getD_eq_getElem?_getD, List.getElem?_eq_getElem h]
  rfl

/-- `getD` at an in-range index is `get`. -/
theorem getD_eq_get_q (l : List ℚ) (i : ℕ) (h : i < l.length) :
    l.getD i 0 = l.get ⟨i, h⟩ := by
  rw [List.getD_eq_getElem?_getD, List.getElem?_eq_getElem h]
  rfl

/-- C1 (amended): for every demand-parameter input with `maxP > minP`, the
demand-slope expression evaluates to
`(minQ - maxQ) / (maxP - minP) * elasticity`; when the caller supplies
`minP = maxP`, the unguarded division raises Python's `ZeroDivisionError`
(so NaN/Inf is indeed not propagated, but the scripts define no
`DegenerateRangeError`). -/
theorem computeDemandSlope_spec (minP maxP minQ maxQ elasticity : ℚ) :
    (minP < maxP →
      computeDemandSlope minP maxP minQ maxQ elasticity =
        .ok ((minQ - maxQ) / (maxP - minP) * elasticity)) ∧
    (minP = maxP →
      computeDemandSlope minP maxP minQ maxQ elasticity = .zeroDivisionError) := by
  constructor
  · intro h
    unfold computeDemandSlope
    rw [if_neg (sub_ne_zero.mpr (ne_of_gt h))]
  · intro h
    unfold computeDemandSlope
    rw [if_pos (by rw [h, sub_self])]

/-- C1 (counterexample): at `minP = maxP = 200` (a reachable slider state)
the slope evaluation fails with `ZeroDivisionError`, not with the
`DegenerateRangeError` the claim prescribes. -/
theorem computeDemandSlope_zeroDivision_cex :
    computeDemandSlope 200 200 200 1000 1 = .zeroDivisionError ∧
    computeDemandSlope 200 200 200 1000 1 ≠ .degenerateRangeError := by
  have h : computeDemandSlope 200 200 200 1000 1 = .zeroDivisionError := by
    unfold computeDemandSlope
    rw [if_pos (by norm_num)]
  refine ⟨h, ?_⟩
  rw [h]
  intro hc
  exact SlopeResult.noConfusion hc

/-- C1 (witness): the two branches of `computeDemandSlope_spec` at
concrete inputs. -/
theorem computeDemandSlope_spec_witness :
    computeDemandSlope 80 200 200 1000 1 = .ok ((200 - 1000) / (200 - 80) * 1) ∧
    computeDemandSlope 200 200 200 1000 1 = .zeroDivisionError :=
  ⟨(computeDemandSlope_spec 80 200 200 1000 1).1 (by norm_num),
   (computeDemandSlope_spec 200 200 200 1000 1).2 rfl⟩

/-- C7: the confidence interval around an anchor equals exactly
`(anchor * (1 - moe), anchor * (1 + moe))` with no clamping of the lower
bound; `confidenceInterval(100, 0.1) = (90, 110)` exactly, and a negative
lower bound is observable for a large `moe`. -/
theorem confidence_interval_spec :
    (∀ anchor moe : ℚ, App.confidence_interval anchor moe =
        (anchor * (1 - moe), anchor * (1 + moe))) ∧
    App.confidence_interval 100 (1 / 10) = (90, 110) ∧
    (App.confidence_interval 100 2).1 < 0 := by
  refine ⟨fun anchor moe => ?_, by norm_num [App.confidence_interval],
    by norm_num [App.confidence_interval]⟩
  simp only [App.confidence_interval, Prod.mk.injEq]
  constructor <;> ring

/-- C9: the range classification is `withinRange` exactly when
`min_price ≤ specified_price ≤ max_price`; in particular a specified
price equal to either endpoint of a non-degenerate range classifies as
`withinRange`, not below or above. -/
theorem price_deviation_spec (p : PV.Params) :
    (PV.price_deviation p = .withinRange ↔
      p.min_price ≤ p.specified_price ∧ p.specified_price ≤ p.max_price) ∧
    (p.min_price ≤ p.max_price →
      PV.price_deviation { p with specified_price := p.min_price } = .withinRange ∧
      PV.price_deviation { p with specified_price := p.max_price } = .withinRange) := by
  have key : ∀ q : PV.Params, PV.price_deviation q = .withinRange ↔
      q.min_price ≤ q.specified_price ∧ q.specified_price ≤ q.max_price := by
    intro q
    unfold PV.price_deviation
    by_cases h1 : q.specified_price < q.min_price
    · rw [if_pos h1]
      constructor
      · intro hc; exact PV.RangeClass.noConfusion hc
      · rintro ⟨ha, _⟩; exact absurd h1 (not_lt.mpr ha)
    · rw [if_neg h1]
      by_cases h2 : q.specified_price > q.max_price
      · rw [if_pos h2]
        constructor
        · intro hc; exact PV.RangeClass.noConfusion hc
        · rintro ⟨_, hb⟩; exact absurd h2 (not_lt.mpr hb)
      · rw [if_neg h2]
        exact iff_of_true rfl ⟨not_lt.mp h1, not_lt.mp h2⟩
  refine ⟨key p, fun hle => ⟨?_, ?_⟩⟩
  · exact (key _).mpr ⟨le_refl _, hle⟩
  · exact (key _).mpr ⟨hle, le_refl _⟩

/-- C9 (witness): the boundary classifications at a concrete parameter
set with `min_price = 80 ≤ max_price = 200`. -/
theorem price_deviation_spec_witness :
    PV.price_deviation ⟨80, 200, 10000, 50, 1, 80⟩ = .withinRange ∧
    PV.price_deviation ⟨80, 200, 10000, 50, 1, 200⟩ = .withinRange :=
  (price_deviation_spec ⟨80, 200, 10000, 50, 1, 150⟩).2 (by norm_num)

/-- C10: the break-even quantity `fixed_cost / (user_price - variable_cost)`
is computed only under the guard `user_price > variable_cost`, where the
denominator is strictly positive; otherwise no quantity is computed and
the corrective message is produced instead. -/
theorem break_even_guard_spec (user_price variable_cost fixed_cost : ℚ) :
    (variable_cost < user_price →
      App.break_even_analysis user_price variable_cost fixed_cost =
        .quantity (fixed_cost / (user_price - variable_cost)) ∧
      0 < user_price - variable_cost) ∧
    (user_price ≤ variable_cost →
      App.break_even_analysis user_price variable_cost fixed_cost =
        .priceNotAboveVariableCost) := by
  constructor
  · intro h
    refine ⟨?_, sub_pos.mpr h⟩
    unfold App.break_even_analysis
    rw [if_pos h]
  · intro h
    unfold App.break_even_analysis
    rw [if_neg (not_lt.mpr h)]

/-- C10 (witness): both branches of `break_even_guard_spec` at concrete
inputs. -/
theorem break_even_guard_spec_witness :
    (App.break_even_analysis 100 50 1000 = .quantity (1000 / (100 - 50)) ∧
      (0 : ℚ) < 100 - 50) ∧
    App.break_even_analysis 40 50 1000 = .priceNotAboveVariableCost :=
  ⟨(break_even_guard_spec 100 50 1000).1 (by norm_num),
   (break_even_guard_spec 40 50 1000).2 (by norm_num)⟩

/-- C2 (amended): in `app.py` the clamp holds — the sales-quantity series
equals `max(0, maxQ + slope * (p - min(prices)))` pointwise and every
quantity entry is nonnegative.  (The `pricing-visualization.py` variant
omits the `np.maximum` clamp; see the counterexample.) -/
theorem app_sales_quantity_clamped (i : App.Inputs) :
    App.sales_quantity i =
      App.prices.map (fun p =>
        max 0 ((App.max_sales_quantity i : ℚ) +
          App.demand_slope i * (p - npMin App.prices))) ∧
    ∀ q ∈ App.sales_quantity i, 0 ≤ q := by
  constructor
  · unfold App.sales_quantity
    congr 1
    funext p
    exact max_comm _ _
  · intro q hq
    unfold App.sales_quantity at hq
    rw [List.mem_map] at hq
    obtain ⟨p, _, rfl⟩ := hq
    exact le_max_right _ _

/-- C2 (counterexample): `update_profit_curve` in
`pricing-visualization.py` does not clamp its quantities.  With
`min_price = 80`, `max_price = 200`, `variable_cost = 50` and
`price_elasticity = 2` the final grid price is `200` and its sales
quantity is `-600 < 0`. -/
theorem pv_sales_quantity_negative_cex :
    (PV.sales_quantity ⟨80, 200, 10000, 50, 2, 150⟩).length = 100 ∧
    (PV.sales_quantity ⟨80, 200, 10000, 50, 2, 150⟩).getD 99 0 = -600 ∧
    ((-600 : ℚ) < 0) := by
  refine ⟨?_, ?_, by norm_num⟩
  · rw [PV.sales_quantity, List.length_map, PV.prices, linspace_length]
  · rw [PV.sales_quantity]
    rw [getD_map_of_lt _ _ _ (by rw [PV.prices, linspace_length]; norm_num)]
    rw [show PV.prices ⟨80, 200, 10000, 50, 2, 150⟩ = linspace 50 200 100 from rfl]
    rw [linspace_getD 50 200 100 99 (by norm_num)]
    rw [PV.demand_slope]
    norm_num [PV.max_sales_quantity, PV.min_sales_quantity]

/-- C8: the embedded computations of both scripts are pure functions of
their inputs — two invocations with identical parameters produce
identical outputs. -/
theorem determinism_spec (p₁ p₂ : PV.Params) (i₁ i₂ : App.Inputs)
    (hp : p₁ = p₂) (hi : i₁ = i₂) :
    pvCompute p₁ = pvCompute p₂ ∧ appCompute i₁ = appCompute i₂ :=
  ⟨congrArg pvCompute hp, congrArg appCompute hi⟩

/-- C8 (witness): re-running both computations on a fixed concrete
parameter set yields identical output. -/
theorem determinism_spec_witness :
    pvCompute ⟨80, 200, 10000, 50, 1, 150⟩ = pvCompute ⟨80, 200, 10000, 50, 1, 150⟩ ∧
    appCompute ⟨10000, 50, 0, 300, 70, 130, 100⟩ =
      appCompute ⟨10000, 50, 0, 300, 70, 130, 100⟩ :=
  determinism_spec _ _ _ _ rfl rfl

/-- C5 (amended): the finite-population correction strictly reduces the
margin of error whenever `1 < sampleSize < populationSize`.  (At
`sampleSize = 1` the correction factor is exactly `1` and the margin is
unchanged; see the counterexample.) -/
theorem fpc_strictly_reduces_moe (n N : ℕ) (h1 : 1 < n) (h2 : n < N) :
    App.margin_of_error n (some N) < App.margin_of_error n none := by
  have hn : 0 < n := lt_trans one_pos h1
  have hbase : 0 < App.margin_of_error_base n := by
    unfold App.margin_of_error_base App.z_score App.p_estimate
    apply mul_pos (by norm_num)
    rw [Real.sqrt_pos]
    apply div_pos (by norm_num)
    exact_mod_cast hn
  have hNR : (1 : ℝ) < (N : ℝ) := by exact_mod_cast lt_trans h1 h2
  have hnR : (1 : ℝ) < (n : ℝ) := by exact_mod_cast h1
  have hfpc : App.fpc_factor N n < 1 := by
    unfold App.fpc_factor
    rw [Real.sqrt_lt' one_pos, one_pow, div_lt_one (by linarith)]
    linarith
  simp only [App.margin_of_error]
  rw [if_pos ⟨hn, lt_trans hn h2, h2⟩]
  calc App.margin_of_error_base n * App.fpc_factor N n
      < App.margin_of_error_base n * 1 := mul_lt_mul_of_pos_left hfpc hbase
    _ = App.margin_of_error_base n := mul_one _

/-- C5 (counterexample): at `sampleSize = 1 < populationSize = 10000` the
FPC factor is `sqrt((N-1)/(N-1)) = 1`, so the corrected margin of error
equals — is not strictly less than — the uncorrected one. -/
theorem fpc_moe_unchanged_at_sample_one_cex :
    (0 : ℕ) < 1 ∧ (1 : ℕ) < 10000 ∧
    App.margin_of_error 1 (some 10000) = App.margin_of_error 1 none ∧
    ¬ App.margin_of_error 1 (some 10000) < App.margin_of_error 1 none := by
  have heq : App.margin_of_error 1 (some 10000) = App.margin_of_error 1 none := by
    simp only [App.margin_of_error]
    rw [if_pos (by norm_num)]
    have hf : App.fpc_factor 10000 1 = 1 := by
      unfold App.fpc_factor
      rw [show (((10000 : ℕ) : ℝ) - ((1 : ℕ) : ℝ)) / (((10000 : ℕ) : ℝ) - 1) = 1 by
        norm_num]
      exact Real.sqrt_one
    rw [hf, mul_one]
  exact ⟨by norm_num, by norm_num, heq, by rw [heq]; exact lt_irrefl _⟩

/-- C5 (witness): the strict reduction at the concrete pair
`sampleSize = 300`, `populationSize = 10000` from the specification. -/
theorem fpc_strictly_reduces_moe_witness :
    (1 : ℕ) < 300 ∧ (300 : ℕ) < 10000 ∧
    App.margin_of_error 300 (some 10000) < App.margin_of_error 300 none :=
  ⟨by norm_num, by norm_num,
   fpc_strictly_reduces_moe 300 10000 (by norm_num) (by norm_num)⟩

/-- C3: `findBreakEven` scans the series in increasing price order and
returns the first grid point whose instantaneous (per-point) profit is
`≥ 0`; it signals `NoBreakEven` as the absent optional value `none` —
never an exception — exactly when every profit is negative, which for a
non-empty series coincides with the `np.max(profit) < 0` reflection
branch of `app.py`. -/
theorem findBreakEven_spec (series : List (ℚ × ℚ)) :
    (∀ e, findBreakEven series = some e →
      0 ≤ e.2 ∧ ∃ l₁ l₂, series = l₁ ++ e :: l₂ ∧ ∀ x ∈ l₁, x.2 < 0) ∧
    (findBreakEven series = none ↔ ∀ x ∈ series, x.2 < 0) ∧
    (series ≠ [] →
      (findBreakEven series = none ↔ npMax (series.map Prod.snd) < 0)) := by
  have hnone : findBreakEven series = none ↔ ∀ x ∈ series, x.2 < 0 := by
    unfold findBreakEven
    rw [List.find?_eq_none]
    constructor
    · intro h x hx
      have hx2 := h x hx
      simp only [decide_eq_true_eq] at hx2
      exact not_le.mp hx2
    · intro h x hx
      simp only [decide_eq_true_eq]
      exact not_le.mpr (h x hx)
  refine ⟨?_, hnone, ?_⟩
  · intro e he
    unfold findBreakEven at he
    rw [List.find?_eq_some] at he
    obtain ⟨hsat, l₁, l₂, heq, hneg⟩ := he
    refine ⟨by simpa using hsat, l₁, l₂, heq, fun x hx => ?_⟩
    have hx2 := hneg x hx
    simp only [Bool.not_eq_eq_eq_not, Bool.not_true, decide_eq_false_iff_not] at hx2
    exact not_le.mp hx2
  · intro hne
    rw [hnone]
    have hmapne : series.map Prod.snd ≠ [] := by
      simpa using hne
    obtain ⟨m, hm, hmem, hub⟩ := max?_spec hmapne
    have hnpmax : npMax (series.map Prod.snd) = m := by rw [npMax, hm]; rfl
    rw [hnpmax]
    constructor
    · intro h
      obtain ⟨x, hx, hfx⟩ := List.mem_map.mp hmem
      exact hfx ▸ h x hx
    · intro hmlt x hx
      exact lt_of_le_of_lt (hub _ (List.mem_map_of_mem Prod.snd hx)) hmlt

/-- C3 (witness): on a concrete series the first nonnegative-profit point
is returned with the negative-profit points before it. -/
theorem findBreakEven_spec_witness :
    0 ≤ (((60 : ℚ), (5 : ℚ))).2 ∧
    ∃ l₁ l₂, [((50 : ℚ), (-10 : ℚ)), (60, 5), (70, 3)] =
        l₁ ++ ((60 : ℚ), (5 : ℚ)) :: l₂ ∧ ∀ x ∈ l₁, x.2 < 0 :=
  (findBreakEven_spec [((50 : ℚ), (-10 : ℚ)), (60, 5), (70, 3)]).1 (60, 5)
    (by norm_num [findBreakEven, List.find?])

/-- C4: `np.argmax` over a non-empty profit series returns an in-range
index whose profit is `≥` the profit of every entry of the series, and
every strictly earlier entry has strictly smaller profit — so on ties the
first occurrence (the lowest grid price) wins. -/
theorem npArgmax_spec (profit : List ℚ) (h : profit ≠ []) :
    npArgmax profit < profit.length ∧
    (∀ i, i < profit.length →
      profit.getD i 0 ≤ profit.getD (npArgmax profit) 0) ∧
    (∀ j, j < npArgmax profit →
      profit.getD j 0 < profit.getD (npArgmax profit) 0) := by
  obtain ⟨m, hm, hmem, hub⟩ := max?_spec h
  have hnpmax : npMax profit = m := by rw [npMax, hm]; rfl
  have hex : ∃ x ∈ profit, (fun x => decide (npMax profit ≤ x)) x = true :=
    ⟨m, hmem, by rw [hnpmax]; exact decide_eq_true le_rfl⟩
  have hlen : profit.findIdx (fun x => decide (npMax profit ≤ x)) < profit.length :=
    List.findIdx_lt_length_of_exists hex
  have hlen' : npArgmax profit < profit.length := hlen
  have hvl : m ≤ profit.getD (npArgmax profit) 0 := by
    rw [getD_eq_get_q _ _ hlen', ← hnpmax]
    have hp := List.findIdx_getElem (w := hlen)
    simp only [decide_eq_true_eq] at hp
    exact hp
  have hvm : profit.getD (npArgmax profit) 0 = m := by
    refine le_antisymm ?_ hvl
    rw [getD_eq_get_q _ _ hlen']
    exact hub _ (profit.get_mem _ _)
  refine ⟨hlen', fun i hi => ?_, fun j hj => ?_⟩
  · rw [hvm, getD_eq_get_q _ _ hi]
    exact hub _ (profit.get_mem _ _)
  · have hjlen : j < profit.length := lt_trans hj hlen'
    have hnp := List.not_of_lt_findIdx (p := fun x => decide (npMax profit ≤ x)) hj
    simp only [decide_eq_false_iff_not, hnpmax] at hnp
    rw [hvm, getD_eq_get_q _ _ hjlen]
    exact not_le.mp hnp

/-- C4 (witness): on the series `[1, 3, 3, 2]` the argmax index is in
range, dominates every entry, and every earlier entry is strictly
smaller (the tie between the two `3`s is broken towards the first). -/
theorem npArgmax_spec_witness :
    npArgmax [(1 : ℚ), 3, 3, 2] < ([(1 : ℚ), 3, 3, 2]).length ∧
    (∀ i, i < ([(1 : ℚ), 3, 3, 2]).length →
      ([(1 : ℚ), 3, 3, 2]).getD i 0 ≤
        ([(1 : ℚ), 3, 3, 2]).getD (npArgmax [(1 : ℚ), 3, 3, 2]) 0) ∧
    (∀ j, j < npArgmax [(1 : ℚ), 3, 3, 2] →
      ([(1 : ℚ), 3, 3, 2]).getD j 0 <
        ([(1 : ℚ), 3, 3, 2]).getD (npArgmax [(1 : ℚ), 3, 3, 2]) 0) :=
  npArgmax_spec [(1 : ℚ), 3, 3, 2] (by simp)

/-- C6: over curve points sorted ascending by price, `derivePMCPME`
returns `pmc` = the maximum price among points with
`pctTooCheap ≤ pctExpensive` and `pme` = the minimum price among points
with `pctTooExpensive ≥ pctCheap`, and fails with `NoIntersectionError` —
never fabricating a value — whenever either predicate has no satisfying
point. -/
theorem derivePMCPME_spec (pts : List PSMCurvePoint)
    (_hsorted : List.Sorted (fun a b => a.price ≤ b.price) pts) :
    (∀ pmc pme, derivePMCPME pts = .ok pmc pme →
      (pmc ∈ (pmcCandidates pts).map PSMCurvePoint.price ∧
        ∀ q ∈ (pmcCandidates pts).map PSMCurvePoint.price, q ≤ pmc) ∧
      (pme ∈ (pmeCandidates pts).map PSMCurvePoint.price ∧
        ∀ q ∈ (pmeCandidates pts).map PSMCurvePoint.price, pme ≤ q)) ∧
    ((pmcCandidates pts = [] ∨ pmeCandidates pts = []) →
      derivePMCPME pts = .noIntersectionError) := by
  constructor
  · intro pmc pme h
    unfold derivePMCPME at h
    cases hmax : ((pmcCandidates pts).map PSMCurvePoint.price).max? with
    | none =>
      rw [hmax] at h
      cases hmin : ((pmeCandidates pts).map PSMCurvePoint.price).min? <;>
        rw [hmin] at h <;> cases h
    | some m1 =>
      rw [hmax] at h
      cases hmin : ((pmeCandidates pts).map PSMCurvePoint.price).min? with
      | none => rw [hmin] at h; cases h
      | some m2 =>
        rw [hmin] at h
        cases h
        have hmaxp := (List.max?_eq_some_iff (fun a => le_refl a)
          (fun a b => max_choice a b) (fun a b c => max_le_iff)).mp hmax
        have hminp := (List.min?_eq_some_iff (fun a => le_refl a)
          (fun a b => min_choice a b) (fun a b c => le_min_iff)).mp hmin
        exact ⟨⟨hmaxp.1, hmaxp.2⟩, ⟨hminp.1, hminp.2⟩⟩
  · intro hemp
    unfold derivePMCPME
    rcases hemp with he | he
    · rw [he, List.map_nil]
      cases ((pmeCandidates pts).map PSMCurvePoint.price).min? <;> rfl
    · rw [he, List.map_nil]
      cases ((pmcCandidates pts).map PSMCurvePoint.price).max? <;> rfl

/-- C6 (witness): on the example points of §8 of the specification the
derivation returns `pmc = 150` and `pme = 100`, each characterised as the
extremum over the respective candidate set. -/
theorem derivePMCPME_spec_witness :
    ((150 : ℚ) ∈ (pmcCandidates psmExample).map PSMCurvePoint.price ∧
      ∀ q ∈ (pmcCandidates psmExample).map PSMCurvePoint.price, q ≤ 150) ∧
    ((100 : ℚ) ∈ (pmeCandidates psmExample).map PSMCurvePoint.price ∧
      ∀ q ∈ (pmeCandidates psmExample).map PSMCurvePoint.price, 100 ≤ q) :=
  (derivePMCPME_spec psmExample
      (by norm_num [psmExample, List.sorted_cons])).1 150 100
    (by norm_num [psmExample, derivePMCPME, pmcCandidates, pmeCandidates,
      List.filter, List.max?_cons, List.min?_cons])

end PricingViz
